import Mathlib

/-!
Shallow embedding of the Homa Lite module (src/modules/homa-lite/src/lib.rs)
of the Acala repository.

The pallet has four storage items (PendingAmount, BatchTotalIssuanceInfo,
CurrentBatch, RelayChainStashAccount) and four dispatchable calls
(request_mint, issue, claim, set_stash_account_id).  `Balance` is `u128`,
`EraIndex` is `u32`, and `module_support::Ratio` is `FixedU128`, a
fixed-point number with denominator `10 ^ 18` stored in a `u128`.

External collaborators (the multi-currency ledger, the two EnsureOrigin
checks) are modelled by an environment record holding the outcome of each
external call made during one dispatch.  Each operation is translated
statement by statement in source order; external transfer and deposit calls
are recorded in a trace list so that theorems can speak about which external
effects a call performed.  Errors abort the call before any later statement
runs, matching the `?` operator; a Rust panic from `.expect` is the separate
`Outcome.fatal`.  The substrate host applies an extrinsic transactionally:
on an error or a panic all storage writes are reverted, which `rollbackOn`
captures for the step relation.
-/

namespace HomaLite

/-- Account identifiers, kept abstract. -/
abbrev AccountId := Nat

/-- `Balance` is `u128` in the source; modelled as `Nat` with explicit `2 ^ 128` bounds. -/
abbrev Balance := Nat

/-- `EraIndex` is `u32`. -/
abbrev EraIndex := Nat

/-- One past the largest `u128` value. -/
def u128Mod : Nat := 2 ^ 128

/-- One past the largest `u32` value. -/
def u32Mod : Nat := 2 ^ 32

/-- `FixedU128::DIV`, the denominator of the fixed-point type `module_support::Ratio`. -/
def fixedPointDiv : Nat := 10 ^ 18

/-- `u128::checked_add`. -/
def checkedAddU128 (a b : Nat) : Option Nat :=
  if a + b < u128Mod then some (a + b) else none

/-- `u32::checked_add`. -/
def checkedAddU32 (a b : Nat) : Option Nat :=
  if a + b < u32Mod then some (a + b) else none

/-- `FixedPointNumber::checked_from_rational(n, d)` for `FixedU128`: `none` when the
denominator is zero or when `n * DIV / d` (truncated) does not fit in `u128`;
otherwise the inner fixed-point value `n * DIV / d`. -/
def checked_from_rational (n d : Nat) : Option Nat :=
  if d = 0 then none
  else
    let v := n * fixedPointDiv / d
    if v < u128Mod then some v else none

/-- `FixedPointNumber::checked_mul_int` for `FixedU128` applied to a `u128`:
`inner * n / DIV`, truncated toward zero, `none` when the result does not fit
in `u128`. -/
def checked_mul_int (inner n : Nat) : Option Nat :=
  let v := inner * n / fixedPointDiv
  if v < u128Mod then some v else none

/-- The two currency ids the pallet uses, `T::StakingCurrencyId` and
`T::LiquidCurrencyId`. -/
inductive CurrencyId where
  | staking
  | liquid
deriving DecidableEq

/-- `sp_runtime::ArithmeticError`. -/
inductive ArithmeticError where
  | Overflow
  | Underflow
  | DivisionByZero
deriving DecidableEq

/-- The pallet error enum `Error<T>`. -/
inductive HomaError where
  | LiquidCurrencyNotIssuedForThisBatch
  | RelayChainStashAccountNotSet
  | InvalidStakedCurrencyTotalIssuance
deriving DecidableEq

/-- `sp_runtime::DispatchError`, restricted to the variants this pallet can
produce or propagate; `Other` stands for an arbitrary error bubbled up from
the external currency ledger. -/
inductive DispatchError where
  | BadOrigin
  | Module (e : HomaError)
  | Arithmetic (e : ArithmeticError)
  | Other (code : Nat)
deriving DecidableEq

/-- Dispatch origins: a signed extrinsic, root, or an unsigned call. -/
inductive Origin where
  | signed (who : AccountId)
  | root
  | none
deriving DecidableEq

/-- `frame_system::ensure_signed`. -/
def ensure_signed : Origin → Except DispatchError AccountId
  | Origin.signed who => Except.ok who
  | _ => Except.error DispatchError.BadOrigin

/-- The struct `TotalIssuanceInfo` recorded per batch. -/
structure TotalIssuanceInfo where
  staking_total : Balance
  liquid_total : Balance
deriving DecidableEq

/-- The four storage items of the pallet.  `PendingAmount` is a `ValueQuery`
double map (absent entries read as zero), so it is a total function;
`BatchTotalIssuanceInfo` and `RelayChainStashAccount` are `OptionQuery`. -/
@[ext]
structure HomaState where
  pendingAmount : EraIndex → AccountId → Balance
  batchTotalIssuanceInfo : EraIndex → Option TotalIssuanceInfo
  currentBatch : EraIndex
  relayChainStashAccount : Option AccountId

/-- The pallet event enum `Event<T>`. -/
inductive Event where
  | MintRequested (batch : EraIndex) (user : AccountId) (amount : Balance)
  | BatchProcessed (batch : EraIndex) (stakingTotal liquidTotal : Balance)
  | LiquidCurrencyClaimed (batch : EraIndex) (user : AccountId) (amount : Balance)
  | RelayChainStashAccountUpdated (newStash : AccountId)
deriving DecidableEq

/-- External currency-ledger calls a dispatch can perform. -/
inductive ExtCall where
  | transfer (currency : CurrencyId) (src dst : AccountId) (amount : Balance)
  | deposit (currency : CurrencyId) (dst : AccountId) (amount : Balance)
deriving DecidableEq

/-- Outcome of one dispatch: success, a `DispatchError`, or a Rust panic
raised by `.expect` on a failed checked addition. -/
inductive Outcome where
  | ok
  | err (e : DispatchError)
  | fatal
deriving DecidableEq

/-- Result of running one dispatch sequentially: the outcome, the pallet
storage as left at the point the call returned, the external currency calls
performed (in order), and the events deposited. -/
structure CallResult where
  outcome : Outcome
  state : HomaState
  calls : List ExtCall
  events : List Event

/-- Outcomes of the external collaborators during one dispatch: the result
the currency ledger returns for a `transfer` and for a `deposit`, the live
`total_issuance` of the liquid currency, and the verdicts of the two
`EnsureOrigin` checks (`T::IssuerOrigin`, `T::GovernanceOrigin`). -/
structure Env where
  transferResult : Except DispatchError Unit
  depositResult : Except DispatchError Unit
  liquidTotalIssuance : Balance
  issuerOriginOk : Origin → Bool
  governanceOriginOk : Origin → Bool

/-- The extrinsic `request_mint(origin, amount)`: read the stash account
(erroring with `RelayChainStashAccountNotSet` when unset), ensure a signed
origin, transfer `amount` of the staking currency from the caller to the
stash account, then increment `PendingAmount(current_batch, who)` with a
checked addition whose overflow panics. -/
def request_mint (env : Env) (origin : Origin) (amount : Balance) (s : HomaState) : CallResult :=
  match s.relayChainStashAccount with
  | Option.none =>
      ⟨Outcome.err (DispatchError.Module HomaError.RelayChainStashAccountNotSet), s, [], []⟩
  | some stash_account =>
    match ensure_signed origin with
    | Except.error e => ⟨Outcome.err e, s, [], []⟩
    | Except.ok who =>
      let current_batch := s.currentBatch
      let tcall := ExtCall.transfer CurrencyId.staking who stash_account amount
      match env.transferResult with
      | Except.error e => ⟨Outcome.err e, s, [tcall], []⟩
      | Except.ok _ =>
        match checkedAddU128 (s.pendingAmount current_batch who) amount with
        | Option.none => ⟨Outcome.fatal, s, [tcall], []⟩
        | some newAmount =>
          ⟨Outcome.ok,
           ⟨fun b u => if b = current_batch ∧ u = who then newAmount else s.pendingAmount b u,
            s.batchTotalIssuanceInfo, s.currentBatch, s.relayChainStashAccount⟩,
           [tcall],
           [Event.MintRequested current_batch who amount]⟩

/-- The extrinsic `issue(origin, staking_total)`: ensure the issuer origin,
require `staking_total != 0`, snapshot `{staking_total, liquid_total}` under
the current batch index, then advance `CurrentBatch` with a checked addition
whose overflow panics. -/
def issue (env : Env) (origin : Origin) (staking_total : Balance) (s : HomaState) : CallResult :=
  if env.issuerOriginOk origin = true then
    if staking_total = 0 then
      ⟨Outcome.err (DispatchError.Module HomaError.InvalidStakedCurrencyTotalIssuance), s, [], []⟩
    else
      let current_batch := s.currentBatch
      let liquid_total := env.liquidTotalIssuance
      let total_for_batch : TotalIssuanceInfo := ⟨staking_total, liquid_total⟩
      let s1 : HomaState :=
        ⟨s.pendingAmount,
         fun b => if b = current_batch then some total_for_batch else s.batchTotalIssuanceInfo b,
         s.currentBatch, s.relayChainStashAccount⟩
      match checkedAddU32 current_batch 1 with
      | Option.none => ⟨Outcome.fatal, s1, [], []⟩
      | some nextBatch =>
        ⟨Outcome.ok,
         ⟨s1.pendingAmount, s1.batchTotalIssuanceInfo, nextBatch, s1.relayChainStashAccount⟩,
         [],
         [Event.BatchProcessed current_batch staking_total liquid_total]⟩
  else
    ⟨Outcome.err DispatchError.BadOrigin, s, [], []⟩

/-- The extrinsic `claim(origin, who, batch)`: ensure a signed origin, read
the pending amount, require a `TotalIssuanceInfo` for the batch (else
`LiquidCurrencyNotIssuedForThisBatch`), compute the exchange ratio with
`Ratio::checked_from_rational` and the mint amount with `checked_mul_int`
(each `ArithmeticError::Overflow` on failure), deposit the liquid currency
into `who`, then remove the pending entry. -/
def claim (env : Env) (origin : Origin) (who : AccountId) (batch : EraIndex) (s : HomaState) :
    CallResult :=
  match ensure_signed origin with
  | Except.error e => ⟨Outcome.err e, s, [], []⟩
  | Except.ok _ =>
    let staked_amount := s.pendingAmount batch who
    match s.batchTotalIssuanceInfo batch with
    | Option.none =>
        ⟨Outcome.err (DispatchError.Module HomaError.LiquidCurrencyNotIssuedForThisBatch), s, [], []⟩
    | some total_info =>
      match checked_from_rational total_info.liquid_total total_info.staking_total with
      | Option.none => ⟨Outcome.err (DispatchError.Arithmetic ArithmeticError.Overflow), s, [], []⟩
      | some exchange_ratio =>
        match checked_mul_int exchange_ratio staked_amount with
        | Option.none =>
            ⟨Outcome.err (DispatchError.Arithmetic ArithmeticError.Overflow), s, [], []⟩
        | some liquid_to_mint =>
          let dcall := ExtCall.deposit CurrencyId.liquid who liquid_to_mint
          match env.depositResult with
          | Except.error e => ⟨Outcome.err e, s, [dcall], []⟩
          | Except.ok _ =>
            ⟨Outcome.ok,
             ⟨fun b u => if b = batch ∧ u = who then 0 else s.pendingAmount b u,
              s.batchTotalIssuanceInfo, s.currentBatch, s.relayChainStashAccount⟩,
             [dcall],
             [Event.LiquidCurrencyClaimed batch who liquid_to_mint]⟩

/-- The extrinsic `set_stash_account_id(origin, new_account_id)`: ensure the
governance origin, then overwrite `RelayChainStashAccount`. -/
def set_stash_account_id (env : Env) (origin : Origin) (new_account_id : AccountId)
    (s : HomaState) : CallResult :=
  if env.governanceOriginOk origin = true then
    ⟨Outcome.ok,
     ⟨s.pendingAmount, s.batchTotalIssuanceInfo, s.currentBatch, some new_account_id⟩,
     [],
     [Event.RelayChainStashAccountUpdated new_account_id]⟩
  else
    ⟨Outcome.err DispatchError.BadOrigin, s, [], []⟩

/-- Transactional semantics of the substrate host: storage writes of a
dispatch survive only when it returns `Ok`; on an error or a panic they are
reverted. -/
def rollbackOn (s : HomaState) (r : CallResult) : HomaState :=
  match r.outcome with
  | Outcome.ok => r.state
  | _ => s

/-- One host-level state transition: some extrinsic dispatched with some
origin, arguments and external-collaborator outcomes. -/
inductive Step : HomaState → HomaState → Prop where
  | requestMint (env : Env) (origin : Origin) (amount : Balance) (s : HomaState) :
      Step s (rollbackOn s (request_mint env origin amount s))
  | issueStep (env : Env) (origin : Origin) (staking_total : Balance) (s : HomaState) :
      Step s (rollbackOn s (issue env origin staking_total s))
  | claimStep (env : Env) (origin : Origin) (who : AccountId) (batch : EraIndex) (s : HomaState) :
      Step s (rollbackOn s (claim env origin who batch s))
  | setStash (env : Env) (origin : Origin) (new_account_id : AccountId) (s : HomaState) :
      Step s (rollbackOn s (set_stash_account_id env origin new_account_id s))

/-- The genesis storage: empty maps, batch cursor zero, no stash account. -/
def genesisState : HomaState :=
  ⟨fun _ _ => 0, fun _ => Option.none, 0, Option.none⟩

/-- States reachable from genesis by dispatching extrinsics. -/
inductive Reachable : HomaState → Prop where
  | genesis : Reachable genesisState
  | step {s t : HomaState} : Reachable s → Step s t → Reachable t

/-- Cursor invariant: a batch has a snapshot exactly when it lies below the
current batch cursor. -/
def CursorInv (s : HomaState) : Prop :=
  ∀ b, (s.batchTotalIssuanceInfo b).isSome ↔ b < s.currentBatch

/-- A number is strictly below the next multiple of the divisor. -/
lemma lt_succ_div_mul (a b : Nat) (hb : 0 < b) : a < (a / b + 1) * b := by
  calc a = b * (a / b) + a % b := (Nat.div_add_mod a b).symm
    _ < b * (a / b) + b := Nat.add_lt_add_left (Nat.mod_lt a hb) _
    _ = (a / b + 1) * b := by ring

/-- The fixed-point product `(L * E / S) * A / E` never exceeds the exact
floor `A * L / S`. -/
lemma fixed_mul_le (S L A E : Nat) (hS : 0 < S) (hE : 0 < E) :
    L * E / S * A / E ≤ A * L / S := by
  have h1 : L * E / S * A / E * E ≤ L * E / S * A := Nat.div_mul_le_self _ _
  have h2 : L * E / S * S ≤ L * E := Nat.div_mul_le_self _ _
  have h6 : L * E / S * A / E * S * E ≤ A * L * E := by
    calc L * E / S * A / E * S * E = L * E / S * A / E * E * S := by ring
      _ ≤ L * E / S * A * S := mul_le_mul_right' h1 S
      _ = L * E / S * S * A := by ring
      _ ≤ L * E * A := mul_le_mul_right' h2 A
      _ = A * L * E := by ring
  have h7 : L * E / S * A / E * S ≤ A * L := Nat.le_of_mul_le_mul_right h6 hE
  exact (Nat.le_div_iff_mul_le hS).mpr h7

/-- The fixed-point product `(L * E / S) * A / E` is below the exact floor
`A * L / S` by at most `A / E + 1`: one unit of fixed-point precision scaled
by the multiplicand, plus the final truncation. -/
lemma fixed_mul_ge (S L A E : Nat) (hS : 0 < S) (hE : 0 < E) :
    A * L / S ≤ L * E / S * A / E + A / E + 1 := by
  rcases Nat.eq_zero_or_pos A with hA | hA
  · subst hA; simp
  have h1 : L * E < (L * E / S + 1) * S := lt_succ_div_mul (L * E) S hS
  have h2 : L * E / S * A < (L * E / S * A / E + 1) * E := lt_succ_div_mul _ E hE
  have h3 : A < (A / E + 1) * E := lt_succ_div_mul A E hE
  have key : A * L * E < (L * E / S * A / E + A / E + 2) * S * E := by
    calc A * L * E = A * (L * E) := by ring
      _ < A * ((L * E / S + 1) * S) := mul_lt_mul_of_pos_left h1 hA
      _ = (L * E / S * A + A) * S := by ring
      _ ≤ ((L * E / S * A / E + 1) * E + (A / E + 1) * E) * S :=
          mul_le_mul_right' (le_of_lt (Nat.add_lt_add h2 h3)) S
      _ = (L * E / S * A / E + A / E + 2) * S * E := by ring
  have key2 : A * L < (L * E / S * A / E + A / E + 2) * S :=
    lt_of_mul_lt_mul_right key (Nat.zero_le E)
  have key3 : A * L / S < L * E / S * A / E + A / E + 2 :=
    (Nat.div_lt_iff_lt_mul hS).mpr (by calc A * L < _ := key2
                                         _ = (L * E / S * A / E + A / E + 2) * S := rfl)
  omega

/-- `request_mint` touches only the `PendingAmount` map: the snapshot map,
the batch cursor and the stash account are left as they were, on every path. -/
lemma request_mint_preserves (env : Env) (origin : Origin) (amount : Balance) (s : HomaState) :
    (request_mint env origin amount s).state.batchTotalIssuanceInfo = s.batchTotalIssuanceInfo ∧
    (request_mint env origin amount s).state.currentBatch = s.currentBatch ∧
    (request_mint env origin amount s).state.relayChainStashAccount =
      s.relayChainStashAccount := by
  unfold request_mint
  dsimp only
  split
  · exact ⟨rfl, rfl, rfl⟩
  · split
    · exact ⟨rfl, rfl, rfl⟩
    · split
      · exact ⟨rfl, rfl, rfl⟩
      · split
        · exact ⟨rfl, rfl, rfl⟩
        · exact ⟨rfl, rfl, rfl⟩

/-- `claim` touches only the `PendingAmount` map: the snapshot map, the batch
cursor and the stash account are left as they were, on every path. -/
lemma claim_preserves (env : Env) (origin : Origin) (who : AccountId) (batch : EraIndex)
    (s : HomaState) :
    (claim env origin who batch s).state.batchTotalIssuanceInfo = s.batchTotalIssuanceInfo ∧
    (claim env origin who batch s).state.currentBatch = s.currentBatch ∧
    (claim env origin who batch s).state.relayChainStashAccount = s.relayChainStashAccount := by
  unfold claim
  dsimp only
  split
  · exact ⟨rfl, rfl, rfl⟩
  · split
    · exact ⟨rfl, rfl, rfl⟩
    · split
      · exact ⟨rfl, rfl, rfl⟩
      · split
        · exact ⟨rfl, rfl, rfl⟩
        · split
          · exact ⟨rfl, rfl, rfl⟩
          · exact ⟨rfl, rfl, rfl⟩

/-- `set_stash_account_id` touches only the stash account: the snapshot map
and the batch cursor are left as they were, on every path. -/
lemma set_stash_preserves (env : Env) (origin : Origin) (new_account_id : AccountId)
    (s : HomaState) :
    (set_stash_account_id env origin new_account_id s).state.batchTotalIssuanceInfo =
      s.batchTotalIssuanceInfo ∧
    (set_stash_account_id env origin new_account_id s).state.currentBatch = s.currentBatch := by
  unfold set_stash_account_id
  split
  · exact ⟨rfl, rfl⟩
  · exact ⟨rfl, rfl⟩

/-- Characterization of a successful `issue`: the supplied staking total was
nonzero, the cursor advanced by exactly one, the snapshot map gained exactly
the entry for the previously open batch, and the pending map is untouched. -/
lemma issue_ok_state (env : Env) (origin : Origin) (staking_total : Balance) (s : HomaState)
    (h : (issue env origin staking_total s).outcome = Outcome.ok) :
    staking_total ≠ 0 ∧
    (issue env origin staking_total s).state.currentBatch = s.currentBatch + 1 ∧
    ((issue env origin staking_total s).state.batchTotalIssuanceInfo =
      fun b => if b = s.currentBatch then some ⟨staking_total, env.liquidTotalIssuance⟩
               else s.batchTotalIssuanceInfo b) ∧
    (issue env origin staking_total s).state.pendingAmount = s.pendingAmount := by
  cases hio : env.issuerOriginOk origin with
  | false => simp [issue, hio] at h
  | true =>
    by_cases h0 : staking_total = 0
    · simp [issue, hio, h0] at h
    · cases hadd : checkedAddU32 s.currentBatch 1 with
      | none => simp [issue, hio, h0, hadd] at h
      | some nb =>
        have hnb : nb = s.currentBatch + 1 := by
          unfold checkedAddU32 at hadd
          split at hadd
          · injection hadd with hv
            omega
          · exact absurd hadd (by simp)
        refine ⟨h0, ?_, ?_, ?_⟩ <;> simp [issue, hio, h0, hadd, hnb]

/-- The cursor invariant depends only on the snapshot map and the cursor. -/
lemma cursorInv_of_eq {s t : HomaState}
    (hb : t.batchTotalIssuanceInfo = s.batchTotalIssuanceInfo)
    (hc : t.currentBatch = s.currentBatch) (h : CursorInv s) : CursorInv t := by
  intro b
  rw [hb, hc]
  exact h b

/-- A successful `issue` preserves the cursor invariant. -/
lemma cursorInv_issue_ok {env : Env} {origin : Origin} {staking_total : Balance}
    {s : HomaState} (h : CursorInv s)
    (hok : (issue env origin staking_total s).outcome = Outcome.ok) :
    CursorInv (issue env origin staking_total s).state := by
  obtain ⟨hne, hc, hmap, hpend⟩ := issue_ok_state env origin staking_total s hok
  intro b
  have hb2 : (issue env origin staking_total s).state.batchTotalIssuanceInfo b =
      (if b = s.currentBatch then some ⟨staking_total, env.liquidTotalIssuance⟩
       else s.batchTotalIssuanceInfo b) := by
    rw [hmap]
  rw [hc, hb2]
  rcases eq_or_ne b s.currentBatch with hbe | hbe
  · subst hbe
    simp
  · rw [if_neg hbe, h b]
    constructor
    · intro hlt
      exact Nat.lt_succ_of_lt hlt
    · intro hlt
      exact lt_of_le_of_ne (Nat.lt_succ_iff.mp hlt) hbe

/-- Every state reachable from genesis satisfies the cursor invariant. -/
lemma reachable_cursorInv {s : HomaState} (h : Reachable s) : CursorInv s := by
  induction h with
  | genesis =>
    intro b
    simp [genesisState]
  | step hr hst ih =>
    rename_i sv tv
    cases hst with
    | requestMint env origin amount =>
      unfold rollbackOn
      split
      · obtain ⟨hb, hc, _⟩ := request_mint_preserves env origin amount sv
        exact cursorInv_of_eq hb hc ih
      · exact ih
    | issueStep env origin staking_total =>
      unfold rollbackOn
      split
      · rename_i hok
        exact cursorInv_issue_ok ih hok
      · exact ih
    | claimStep env origin who batch =>
      unfold rollbackOn
      split
      · obtain ⟨hb, hc, _⟩ := claim_preserves env origin who batch sv
        exact cursorInv_of_eq hb hc ih
      · exact ih
    | setStash env origin new_account_id =>
      unfold rollbackOn
      split
      · obtain ⟨hb, hc⟩ := set_stash_preserves env origin new_account_id sv
        exact cursorInv_of_eq hb hc ih
      · exact ih

/-- The fixed-point denominator is positive. -/
lemma fixedPointDiv_pos : 0 < fixedPointDiv := by
  norm_num [fixedPointDiv]

/-- C4: for every caller and every amount, `request_mint` fails with
`RelayChainStashAccountNotSet` whenever no stash destination has ever been
set, and in that case the pallet storage is unchanged and no external
currency call (in particular no transfer) occurs. -/
theorem C4_commit_fails_without_stash (env : Env) (origin : Origin) (amount : Balance)
    (s : HomaState) (hstash : s.relayChainStashAccount = Option.none) :
    (request_mint env origin amount s).outcome =
      Outcome.err (DispatchError.Module HomaError.RelayChainStashAccountNotSet) ∧
    (request_mint env origin amount s).state = s ∧
    (request_mint env origin amount s).calls = [] := by
  refine ⟨?_, ?_, ?_⟩ <;> simp [request_mint, hstash]

/-- C10: the stash-destination presence check in `request_mint` is performed
before the caller signature is verified: for every origin, including unsigned
or root ones, if the stash destination is unset the call fails with
`RelayChainStashAccountNotSet` rather than with an origin error. -/
theorem C10_stash_check_precedes_signature_check (env : Env) (origin : Origin)
    (amount : Balance) (s : HomaState) (hstash : s.relayChainStashAccount = Option.none) :
    (request_mint env origin amount s).outcome =
      Outcome.err (DispatchError.Module HomaError.RelayChainStashAccountNotSet) ∧
    (request_mint env origin amount s).outcome ≠ Outcome.err DispatchError.BadOrigin := by
  constructor
  · simp [request_mint, hstash]
  · simp [request_mint, hstash]

/-- C5: with a stash account configured and a signed caller, if the staking
transfer fails then `request_mint` returns that error unchanged and the
storage (in particular `PendingAmount`) is untouched; if the transfer
succeeds and the checked addition does not overflow, the pending entry for
the current batch and the caller grows by exactly the requested amount and
every other pending entry is untouched. -/
theorem C5_commit_transfer_ordering (env : Env) (who stash : AccountId) (amount : Balance)
    (s : HomaState) (hstash : s.relayChainStashAccount = some stash) :
    (∀ e, env.transferResult = Except.error e →
      (request_mint env (Origin.signed who) amount s).outcome = Outcome.err e ∧
      (request_mint env (Origin.signed who) amount s).state = s) ∧
    (env.transferResult = Except.ok () →
      s.pendingAmount s.currentBatch who + amount < u128Mod →
      (request_mint env (Origin.signed who) amount s).outcome = Outcome.ok ∧
      (request_mint env (Origin.signed who) amount s).state.pendingAmount s.currentBatch who =
        s.pendingAmount s.currentBatch who + amount ∧
      (∀ b u, ¬(b = s.currentBatch ∧ u = who) →
        (request_mint env (Origin.signed who) amount s).state.pendingAmount b u =
          s.pendingAmount b u)) := by
  constructor
  · intro e he
    constructor <;> simp [request_mint, hstash, ensure_signed, he]
  · intro htr hlt
    have hadd : checkedAddU128 (s.pendingAmount s.currentBatch who) amount =
        some (s.pendingAmount s.currentBatch who + amount) := by
      unfold checkedAddU128
      rw [if_pos hlt]
    refine ⟨?_, ?_, ?_⟩
    · simp [request_mint, hstash, ensure_signed, htr, hadd]
    · simp [request_mint, hstash, ensure_signed, htr, hadd]
    · intro b u hbu
      simp [request_mint, hstash, ensure_signed, htr, hadd, hbu]

/-- C6: for every authorized issuer call, `issue` with a zero staking total
fails with `InvalidStakedCurrencyTotalIssuance`; no snapshot is written, the
cursor is unchanged, and no external call happens. -/
theorem C6_close_rejects_zero_staking_total (env : Env) (origin : Origin) (s : HomaState)
    (hauth : env.issuerOriginOk origin = true) :
    (issue env origin 0 s).outcome =
      Outcome.err (DispatchError.Module HomaError.InvalidStakedCurrencyTotalIssuance) ∧
    (issue env origin 0 s).state = s ∧
    (issue env origin 0 s).calls = [] := by
  refine ⟨?_, ?_, ?_⟩ <;> simp [issue, hauth]

/-- C7: for every user and every batch with no snapshot (still open or
unknown), `claim` fails with `LiquidCurrencyNotIssuedForThisBatch` and leaves
all storage unchanged, including the pending entry, performing no external
call. -/
theorem C7_redeem_unclosed_batch_fails (env : Env) (who caller : AccountId)
    (batch : EraIndex) (s : HomaState)
    (hsnap : s.batchTotalIssuanceInfo batch = Option.none) :
    (claim env (Origin.signed caller) who batch s).outcome =
      Outcome.err (DispatchError.Module HomaError.LiquidCurrencyNotIssuedForThisBatch) ∧
    (claim env (Origin.signed caller) who batch s).state = s ∧
    (claim env (Origin.signed caller) who batch s).calls = [] := by
  refine ⟨?_, ?_, ?_⟩ <;> simp [claim, ensure_signed, hsnap]

/-- C9: when the external liquid-currency deposit inside `claim` fails, the
call returns that error and the pending entry for the batch and user is
preserved, so the redemption can be retried; the ledger deletion happens only
after a successful mint. -/
theorem C9_redeem_preserves_pending_on_mint_failure (env : Env) (who caller : AccountId)
    (batch : EraIndex) (s : HomaState) (info : TotalIssuanceInfo) (e : DispatchError)
    (hsnap : s.batchTotalIssuanceInfo batch = some info)
    (hS : info.staking_total ≠ 0)
    (hfit : info.liquid_total * fixedPointDiv / info.staking_total < u128Mod)
    (hmfit : info.liquid_total * fixedPointDiv / info.staking_total *
        s.pendingAmount batch who / fixedPointDiv < u128Mod)
    (hdep : env.depositResult = Except.error e) :
    (claim env (Origin.signed caller) who batch s).outcome = Outcome.err e ∧
    (claim env (Origin.signed caller) who batch s).state = s ∧
    (claim env (Origin.signed caller) who batch s).state.pendingAmount batch who =
      s.pendingAmount batch who := by
  have hrat : checked_from_rational info.liquid_total info.staking_total =
      some (info.liquid_total * fixedPointDiv / info.staking_total) := by
    unfold checked_from_rational
    rw [if_neg hS]
    simp [hfit]
  have hmul : checked_mul_int (info.liquid_total * fixedPointDiv / info.staking_total)
      (s.pendingAmount batch who) =
      some (info.liquid_total * fixedPointDiv / info.staking_total *
        s.pendingAmount batch who / fixedPointDiv) := by
    unfold checked_mul_int
    simp [hmfit]
  have hst : (claim env (Origin.signed caller) who batch s).state = s := by
    simp [claim, ensure_signed, hsnap, hrat, hmul, hdep]
  refine ⟨?_, hst, by rw [hst]⟩
  simp [claim, ensure_signed, hsnap, hrat, hmul, hdep]

/-- C8: for every closed batch and every user with no pending amount, `claim`
succeeds, mints exactly zero liquid currency, and leaves all pallet storage
unchanged (the removal of the absent ledger entry is the identity); hence
re-redeeming an already-redeemed pair yields zero rather than an error. -/
theorem C8_redeem_zero_pending_idempotent (env : Env) (who caller : AccountId)
    (batch : EraIndex) (s : HomaState) (info : TotalIssuanceInfo)
    (hsnap : s.batchTotalIssuanceInfo batch = some info)
    (hS : info.staking_total ≠ 0)
    (hfit : info.liquid_total * fixedPointDiv / info.staking_total < u128Mod)
    (hpend : s.pendingAmount batch who = 0)
    (hdep : env.depositResult = Except.ok ()) :
    (claim env (Origin.signed caller) who batch s).outcome = Outcome.ok ∧
    (claim env (Origin.signed caller) who batch s).calls =
      [ExtCall.deposit CurrencyId.liquid who 0] ∧
    (claim env (Origin.signed caller) who batch s).state = s := by
  have hrat : checked_from_rational info.liquid_total info.staking_total =
      some (info.liquid_total * fixedPointDiv / info.staking_total) := by
    unfold checked_from_rational
    rw [if_neg hS]
    simp [hfit]
  have hmul : checked_mul_int (info.liquid_total * fixedPointDiv / info.staking_total) 0 =
      some 0 := by
    unfold checked_mul_int
    norm_num [u128Mod]
  refine ⟨?_, ?_, ?_⟩
  · simp [claim, ensure_signed, hsnap, hrat, hpend, hmul, hdep]
  · simp [claim, ensure_signed, hsnap, hrat, hpend, hmul, hdep]
  · have hstate : (claim env (Origin.signed caller) who batch s).state =
        ⟨fun b u => if b = batch ∧ u = who then 0 else s.pendingAmount b u,
         s.batchTotalIssuanceInfo, s.currentBatch, s.relayChainStashAccount⟩ := by
      simp [claim, ensure_signed, hsnap, hrat, hpend, hmul, hdep]
    rw [hstate]
    apply HomaState.ext
    · funext b u
      dsimp only
      by_cases hbu : b = batch ∧ u = who
      · rw [if_pos hbu]
        obtain ⟨hb, hu⟩ := hbu
        rw [hb, hu, hpend]
      · rw [if_neg hbu]
    · rfl
    · rfl
    · rfl

/-- C1: a successful `claim` against a snapshot with positive staking total
mints, via one external deposit, exactly the fixed-point value
`(L * DIV / S) * A / DIV`, which is the exact floor `A * L / S` up to the
representable precision of the `Ratio` type: it never exceeds the floor and
falls short of it by at most `A / DIV + 1`. -/
theorem C1_redeem_mints_floor_within_precision (env : Env) (origin : Origin)
    (who : AccountId) (batch : EraIndex) (s : HomaState) (S L A : Balance)
    (hsnap : s.batchTotalIssuanceInfo batch = some ⟨S, L⟩)
    (hS : 0 < S)
    (hA : s.pendingAmount batch who = A)
    (hok : (claim env origin who batch s).outcome = Outcome.ok) :
    (claim env origin who batch s).calls =
      [ExtCall.deposit CurrencyId.liquid who (L * fixedPointDiv / S * A / fixedPointDiv)] ∧
    L * fixedPointDiv / S * A / fixedPointDiv ≤ A * L / S ∧
    A * L / S ≤ L * fixedPointDiv / S * A / fixedPointDiv + A / fixedPointDiv + 1 := by
  subst hA
  cases origin with
  | root => simp [claim, ensure_signed] at hok
  | none => simp [claim, ensure_signed] at hok
  | signed caller =>
    by_cases hfit : L * fixedPointDiv / S < u128Mod
    · have hrat : checked_from_rational L S = some (L * fixedPointDiv / S) := by
        unfold checked_from_rational
        rw [if_neg (Nat.pos_iff_ne_zero.mp hS)]
        simp [hfit]
      by_cases hmfit :
          L * fixedPointDiv / S * s.pendingAmount batch who / fixedPointDiv < u128Mod
      · have hmul : checked_mul_int (L * fixedPointDiv / S) (s.pendingAmount batch who) =
            some (L * fixedPointDiv / S * s.pendingAmount batch who / fixedPointDiv) := by
          unfold checked_mul_int
          simp [hmfit]
        cases hdep : env.depositResult with
        | error e => simp [claim, ensure_signed, hsnap, hrat, hmul, hdep] at hok
        | ok u =>
          refine ⟨?_, ?_, ?_⟩
          · simp [claim, ensure_signed, hsnap, hrat, hmul, hdep]
          · exact fixed_mul_le S L (s.pendingAmount batch who) fixedPointDiv hS
              fixedPointDiv_pos
          · exact fixed_mul_ge S L (s.pendingAmount batch who) fixedPointDiv hS
              fixedPointDiv_pos
      · have hmul : checked_mul_int (L * fixedPointDiv / S) (s.pendingAmount batch who) =
            none := by
          unfold checked_mul_int
          simp [hmfit]
        simp [claim, ensure_signed, hsnap, hrat, hmul] at hok
    · have hrat : checked_from_rational L S = none := by
        unfold checked_from_rational
        rw [if_neg (Nat.pos_iff_ne_zero.mp hS)]
        simp [hfit]
      simp [claim, ensure_signed, hsnap, hrat] at hok

/-- C2: from any reachable state, a successful `issue` advances the batch
cursor by exactly one; any single dispatched operation leaves the cursor
unchanged or advances it by one (it never decreases or skips); and a snapshot
already written for a batch is never overwritten by any later operation. -/
theorem C2_close_advances_cursor_and_snapshots_immutable {s t : HomaState}
    (hs : Reachable s) (hstep : Step s t) :
    (∀ env origin staking_total,
      (issue env origin staking_total s).outcome = Outcome.ok →
      (issue env origin staking_total s).state.currentBatch = s.currentBatch + 1) ∧
    (t.currentBatch = s.currentBatch ∨ t.currentBatch = s.currentBatch + 1) ∧
    (∀ b info, s.batchTotalIssuanceInfo b = some info →
      t.batchTotalIssuanceInfo b = some info) := by
  have hinv := reachable_cursorInv hs
  refine ⟨?_, ?_, ?_⟩
  · intro env origin staking_total hok
    exact (issue_ok_state env origin staking_total s hok).2.1
  · cases hstep with
    | requestMint env origin amount =>
      unfold rollbackOn
      split
      · exact Or.inl (request_mint_preserves env origin amount s).2.1
      · exact Or.inl rfl
    | issueStep env origin staking_total =>
      unfold rollbackOn
      split
      · rename_i hok
        exact Or.inr (issue_ok_state env origin staking_total s hok).2.1
      · exact Or.inl rfl
    | claimStep env origin who batch =>
      unfold rollbackOn
      split
      · exact Or.inl (claim_preserves env origin who batch s).2.1
      · exact Or.inl rfl
    | setStash env origin new_account_id =>
      unfold rollbackOn
      split
      · exact Or.inl (set_stash_preserves env origin new_account_id s).2
      · exact Or.inl rfl
  · intro b info hb
    cases hstep with
    | requestMint env origin amount =>
      unfold rollbackOn
      split
      · rw [(request_mint_preserves env origin amount s).1]
        exact hb
      · exact hb
    | issueStep env origin staking_total =>
      unfold rollbackOn
      split
      · rename_i hok
        obtain ⟨hne, hc, hmap, hpend⟩ := issue_ok_state env origin staking_total s hok
        have hbc : b < s.currentBatch := (hinv b).mp (by rw [hb]; rfl)
        have hbne : b ≠ s.currentBatch := Nat.ne_of_lt hbc
        have hb2 : (issue env origin staking_total s).state.batchTotalIssuanceInfo b =
            (if b = s.currentBatch then some ⟨staking_total, env.liquidTotalIssuance⟩
             else s.batchTotalIssuanceInfo b) := by
          rw [hmap]
        rw [hb2, if_neg hbne]
        exact hb
      · exact hb
    | claimStep env origin who batch =>
      unfold rollbackOn
      split
      · rw [(claim_preserves env origin who batch s).1]
        exact hb
      · exact hb
    | setStash env origin new_account_id =>
      unfold rollbackOn
      split
      · rw [(set_stash_preserves env origin new_account_id s).1]
        exact hb
      · exact hb

/-- C3: in every reachable state, either no snapshot exists and the cursor is
zero, or the cursor equals one plus the highest batch index holding a
snapshot, and no batch at or above the cursor has a snapshot. -/
theorem C3_cursor_is_highest_snapshot_plus_one {s : HomaState} (h : Reachable s) :
    (s.currentBatch = 0 ∧ ∀ b, s.batchTotalIssuanceInfo b = Option.none) ∨
    (∃ hi, s.currentBatch = hi + 1 ∧ (s.batchTotalIssuanceInfo hi).isSome ∧
      ∀ b, hi < b → s.batchTotalIssuanceInfo b = Option.none) := by
  have hinv := reachable_cursorInv h
  cases hc : s.currentBatch with
  | zero =>
    refine Or.inl ⟨rfl, fun b => ?_⟩
    cases hmb : s.batchTotalIssuanceInfo b with
    | none => rfl
    | some v =>
      have hlt := (hinv b).mp (by rw [hmb]; rfl)
      rw [hc] at hlt
      exact absurd hlt (Nat.not_lt_zero b)
  | succ hi =>
    refine Or.inr ⟨hi, rfl, ?_, ?_⟩
    · exact (hinv hi).mpr (by rw [hc]; exact Nat.lt_succ_self hi)
    · intro b hbi
      cases hmb : s.batchTotalIssuanceInfo b with
      | none => rfl
      | some v =>
        have hlt := (hinv b).mp (by rw [hmb]; rfl)
        rw [hc] at hlt
        exact absurd (Nat.lt_succ_iff.mp hlt) (not_le.mpr hbi)

/-- Sample environment: every external call succeeds, the liquid total
issuance reads 500, both origin checks pass. -/
def envAllOk : Env := ⟨Except.ok (), Except.ok (), 500, fun _ => true, fun _ => true⟩

/-- Sample environment whose deposit call fails with an external error. -/
def envDepositFails : Env :=
  ⟨Except.ok (), Except.error (DispatchError.Other 9), 500, fun _ => true, fun _ => true⟩

/-- Sample storage: batch 0 closed with staking total 1000 and liquid total
500, user 1 holding a pending amount of 1000 in batch 0, cursor at 1, stash
account 7. -/
def stateClosedBatch : HomaState :=
  ⟨fun b u => if b = 0 ∧ u = 1 then 1000 else 0,
   fun b => if b = 0 then some ⟨1000, 500⟩ else Option.none,
   1, some 7⟩

/-- Sample storage: genesis except that the stash account is set to 7. -/
def stateStashSet : HomaState := ⟨fun _ _ => 0, fun _ => Option.none, 0, some 7⟩

/-- Witness for C1 at the scenario of the spec: snapshot staking total 1000
and liquid total 500, pending amount 1000; the redeem mints exactly 500. -/
theorem C1_redeem_mints_floor_within_precision_witness :
    stateClosedBatch.batchTotalIssuanceInfo 0 = some ⟨1000, 500⟩ ∧ 0 < 1000 ∧
    stateClosedBatch.pendingAmount 0 1 = 1000 ∧
    (claim envAllOk (Origin.signed 1) 1 0 stateClosedBatch).outcome = Outcome.ok ∧
    ((claim envAllOk (Origin.signed 1) 1 0 stateClosedBatch).calls =
      [ExtCall.deposit CurrencyId.liquid 1 (500 * fixedPointDiv / 1000 * 1000 / fixedPointDiv)] ∧
     500 * fixedPointDiv / 1000 * 1000 / fixedPointDiv ≤ 1000 * 500 / 1000 ∧
     1000 * 500 / 1000 ≤ 500 * fixedPointDiv / 1000 * 1000 / fixedPointDiv +
       1000 / fixedPointDiv + 1) :=
  ⟨rfl, by decide, rfl, by decide,
   C1_redeem_mints_floor_within_precision envAllOk (Origin.signed 1) 1 0 stateClosedBatch
     1000 500 1000 rfl (by decide) rfl (by decide)⟩

/-- Witness for C2: one `issue` dispatch from genesis. -/
theorem C2_close_advances_cursor_and_snapshots_immutable_witness :
    (∀ env origin staking_total,
      (issue env origin staking_total genesisState).outcome = Outcome.ok →
      (issue env origin staking_total genesisState).state.currentBatch =
        genesisState.currentBatch + 1) ∧
    ((rollbackOn genesisState (issue envAllOk Origin.root 1000 genesisState)).currentBatch =
        genesisState.currentBatch ∨
     (rollbackOn genesisState (issue envAllOk Origin.root 1000 genesisState)).currentBatch =
        genesisState.currentBatch + 1) ∧
    (∀ b info, genesisState.batchTotalIssuanceInfo b = some info →
      (rollbackOn genesisState
        (issue envAllOk Origin.root 1000 genesisState)).batchTotalIssuanceInfo b =
        some info) :=
  C2_close_advances_cursor_and_snapshots_immutable Reachable.genesis
    (Step.issueStep envAllOk Origin.root 1000 genesisState)

/-- Witness for C3 at the genesis state. -/
theorem C3_cursor_is_highest_snapshot_plus_one_witness :
    (genesisState.currentBatch = 0 ∧
      ∀ b, genesisState.batchTotalIssuanceInfo b = Option.none) ∨
    (∃ hi, genesisState.currentBatch = hi + 1 ∧
      (genesisState.batchTotalIssuanceInfo hi).isSome ∧
      ∀ b, hi < b → genesisState.batchTotalIssuanceInfo b = Option.none) :=
  C3_cursor_is_highest_snapshot_plus_one Reachable.genesis

/-- Witness for C4: a commit at genesis, where no stash account is set. -/
theorem C4_commit_fails_without_stash_witness :
    genesisState.relayChainStashAccount = Option.none ∧
    ((request_mint envAllOk (Origin.signed 1) 5 genesisState).outcome =
      Outcome.err (DispatchError.Module HomaError.RelayChainStashAccountNotSet) ∧
     (request_mint envAllOk (Origin.signed 1) 5 genesisState).state = genesisState ∧
     (request_mint envAllOk (Origin.signed 1) 5 genesisState).calls = []) :=
  ⟨rfl, C4_commit_fails_without_stash envAllOk (Origin.signed 1) 5 genesisState rfl⟩

/-- Witness for C5: user 1 commits 5 with the stash set and a succeeding
transfer. -/
theorem C5_commit_transfer_ordering_witness :
    stateStashSet.relayChainStashAccount = some 7 ∧
    ((∀ e, envAllOk.transferResult = Except.error e →
      (request_mint envAllOk (Origin.signed 1) 5 stateStashSet).outcome = Outcome.err e ∧
      (request_mint envAllOk (Origin.signed 1) 5 stateStashSet).state = stateStashSet) ∧
    (envAllOk.transferResult = Except.ok () →
      stateStashSet.pendingAmount stateStashSet.currentBatch 1 + 5 < u128Mod →
      (request_mint envAllOk (Origin.signed 1) 5 stateStashSet).outcome = Outcome.ok ∧
      (request_mint envAllOk (Origin.signed 1) 5
          stateStashSet).state.pendingAmount stateStashSet.currentBatch 1 =
        stateStashSet.pendingAmount stateStashSet.currentBatch 1 + 5 ∧
      (∀ b u, ¬(b = stateStashSet.currentBatch ∧ u = 1) →
        (request_mint envAllOk (Origin.signed 1) 5 stateStashSet).state.pendingAmount b u =
          stateStashSet.pendingAmount b u))) :=
  ⟨rfl, C5_commit_transfer_ordering envAllOk 1 7 5 stateStashSet rfl⟩

/-- Witness for C6: an authorized close with staking total zero at genesis. -/
theorem C6_close_rejects_zero_staking_total_witness :
    envAllOk.issuerOriginOk Origin.root = true ∧
    ((issue envAllOk Origin.root 0 genesisState).outcome =
      Outcome.err (DispatchError.Module HomaError.InvalidStakedCurrencyTotalIssuance) ∧
     (issue envAllOk Origin.root 0 genesisState).state = genesisState ∧
     (issue envAllOk Origin.root 0 genesisState).calls = []) :=
  ⟨rfl, C6_close_rejects_zero_staking_total envAllOk Origin.root genesisState rfl⟩

/-- Witness for C7 at the scenario of the spec: a redeem against batch 1
before any close of batch 1 has occurred. -/
theorem C7_redeem_unclosed_batch_fails_witness :
    genesisState.batchTotalIssuanceInfo 1 = Option.none ∧
    ((claim envAllOk (Origin.signed 2) 2 1 genesisState).outcome =
      Outcome.err (DispatchError.Module HomaError.LiquidCurrencyNotIssuedForThisBatch) ∧
     (claim envAllOk (Origin.signed 2) 2 1 genesisState).state = genesisState ∧
     (claim envAllOk (Origin.signed 2) 2 1 genesisState).calls = []) :=
  ⟨rfl, C7_redeem_unclosed_batch_fails envAllOk 2 2 1 genesisState rfl⟩

/-- Witness for C8: user 2 has no pending entry for the closed batch 0 and
redeems zero. -/
theorem C8_redeem_zero_pending_idempotent_witness :
    stateClosedBatch.batchTotalIssuanceInfo 0 = some ⟨1000, 500⟩ ∧
    (1000 : Balance) ≠ 0 ∧
    500 * fixedPointDiv / 1000 < u128Mod ∧
    stateClosedBatch.pendingAmount 0 2 = 0 ∧
    envAllOk.depositResult = Except.ok () ∧
    ((claim envAllOk (Origin.signed 2) 2 0 stateClosedBatch).outcome = Outcome.ok ∧
     (claim envAllOk (Origin.signed 2) 2 0 stateClosedBatch).calls =
       [ExtCall.deposit CurrencyId.liquid 2 0] ∧
     (claim envAllOk (Origin.signed 2) 2 0 stateClosedBatch).state = stateClosedBatch) :=
  ⟨rfl, by decide, by decide, rfl, rfl,
   C8_redeem_zero_pending_idempotent envAllOk 2 2 0 stateClosedBatch ⟨1000, 500⟩
     rfl (by decide) (by decide) rfl rfl⟩

/-- Witness for C9: the deposit fails with an external error and the pending
entry of user 1 for batch 0 is preserved. -/
theorem C9_redeem_preserves_pending_on_mint_failure_witness :
    stateClosedBatch.batchTotalIssuanceInfo 0 = some ⟨1000, 500⟩ ∧
    (1000 : Balance) ≠ 0 ∧
    500 * fixedPointDiv / 1000 < u128Mod ∧
    500 * fixedPointDiv / 1000 * stateClosedBatch.pendingAmount 0 1 / fixedPointDiv < u128Mod ∧
    envDepositFails.depositResult = Except.error (DispatchError.Other 9) ∧
    ((claim envDepositFails (Origin.signed 1) 1 0 stateClosedBatch).outcome =
       Outcome.err (DispatchError.Other 9) ∧
     (claim envDepositFails (Origin.signed 1) 1 0 stateClosedBatch).state = stateClosedBatch ∧
     (claim envDepositFails (Origin.signed 1) 1 0 stateClosedBatch).state.pendingAmount 0 1 =
       stateClosedBatch.pendingAmount 0 1) :=
  ⟨rfl, by decide, by decide, by decide, rfl,
   C9_redeem_preserves_pending_on_mint_failure envDepositFails 1 1 0 stateClosedBatch
     ⟨1000, 500⟩ (DispatchError.Other 9) rfl (by decide) (by decide) (by decide) rfl⟩

/-- Witness for C10: an unsigned commit at genesis still reports the missing
stash account, not a bad origin. -/
theorem C10_stash_check_precedes_signature_check_witness :
    genesisState.relayChainStashAccount = Option.none ∧
    ((request_mint envAllOk Origin.none 5 genesisState).outcome =
      Outcome.err (DispatchError.Module HomaError.RelayChainStashAccountNotSet) ∧
     (request_mint envAllOk Origin.none 5 genesisState).outcome ≠
      Outcome.err DispatchError.BadOrigin) :=
  ⟨rfl, C10_stash_check_precedes_signature_check envAllOk Origin.none 5 genesisState rfl⟩

end HomaLite
